import Mathlib

/-!
Shallow embedding of `src/scripts/yfinance_api.py`.

The script has three parts:
* `get_stock_data(symbol, max_retries=2, retry_delay=1)`: a retry loop around
  the yfinance provider, with rate-limit (HTTP 429) detection and exponential
  backoff;
* `search_stocks(query)`: a phased search (exact symbol, exchange suffixes,
  popular-symbol substring match);
* `main()`: command-line dispatch printing exactly one JSON object to stdout.

The provider (`yf.Ticker(symbol).info`, network and all) is impure, so it is
embedded as an oracle `Nat → AttemptOutcome` giving, for each loop attempt,
either the `info` dictionary the provider returned or the message of the
exception it raised.  Python floats are embedded as rationals, Python `None`
or an absent dictionary key as `Option.none`.  The `lastUpdated` field
(wall-clock `datetime.now()`) is not part of the model; no claim mentions it.
All `print(..., file=sys.stderr)` calls are diagnostics on the error stream
and are not part of the modelled stdout.
-/

namespace YFinanceApi

/-- Embedding of the Python string helpers used by the script:
`str.upper` maps each character through uppercase. -/
def pyUpper (s : String) : String :=
  ⟨s.toList.map Char.toUpper⟩

/-- Embedding of Python `str.strip`: drop whitespace from both ends. -/
def pyStrip (s : String) : String :=
  ⟨((s.toList.dropWhile Char.isWhitespace).reverse.dropWhile Char.isWhitespace).reverse⟩

/-- Does `needle` occur at the head of `hay`? (helper for substring tests). -/
def matchesAt : List Char → List Char → Bool
  | [], _ => true
  | _ :: _, [] => false
  | a :: as, b :: bs => a == b && matchesAt as bs

/-- Embedding of Python `needle in hay` on strings: substring containment. -/
def containsSub (needle : List Char) : List Char → Bool
  | [] => matchesAt needle []
  | b :: bs => matchesAt needle (b :: bs) || containsSub needle bs

/-- Embedding of Python `"429" in error_msg or "Too Many Requests" in error_msg`
(line 96 of the script): the rate-limit detection. -/
def isRateLimitMsg (msg : String) : Bool :=
  containsSub "429".toList msg.toList || containsSub "Too Many Requests".toList msg.toList

/-- Embedding of Python `a or b` for optional strings (used for the `name`
field, line 66): `None` and the empty string are falsy. -/
def pyOrStr (a : Option String) (b : String) : String :=
  match a with
  | none => b
  | some s => if s = "" then b else s

/-- The fields of the provider `info` dictionary that the script reads.
`none` stands for an absent key (or a `None` value). -/
structure TickerInfo where
  regularMarketPrice : Option Rat
  regularMarketPreviousClose : Option Rat
  longName : Option String
  shortName : Option String
  volume : Option Rat
  marketCap : Option Rat
  trailingPE : Option Rat
  dividendRate : Option Rat
  sector : Option String
  industry : Option String
  exchange : Option String
  dayHigh : Option Rat
  dayLow : Option Rat
  fiftyTwoWeekHigh : Option Rat
  fiftyTwoWeekLow : Option Rat
  averageVolume : Option Rat
  dividendYield : Option Rat
  beta : Option Rat
  trailingEps : Option Rat
  deriving DecidableEq

/-- The `stock_data` dictionary built at lines 64-86 of the script
(minus the unmodelled wall-clock `lastUpdated`). -/
structure StockData where
  symbol : String
  name : String
  price : Rat
  change : Rat
  changePercent : Rat
  volume : Rat
  marketCap : Rat
  pe : Rat
  dividend : Rat
  sector : String
  industry : String
  exchange : String
  dayHigh : Rat
  dayLow : Rat
  fiftyTwoWeekHigh : Rat
  fiftyTwoWeekLow : Rat
  avgVolume : Rat
  dividendYield : Rat
  beta : Rat
  eps : Rat
  deriving DecidableEq

/-- Validity check of lines 53-55: `regularMarketPrice` must be present,
truthy (a falsy float is `0`) and non-zero; returns the price when valid. -/
def validPrice (info : TickerInfo) : Option Rat :=
  match info.regularMarketPrice with
  | none => none
  | some p => if p = 0 then none else some p

/-- Lines 58-86: build the `stock_data` dictionary from `info`. -/
def buildStockData (symbol : String) (info : TickerInfo) : StockData :=
  let current_price := info.regularMarketPrice.getD 0
  let previous_close := info.regularMarketPreviousClose.getD current_price
  let change := current_price - previous_close
  let change_percent := if previous_close > 0 then change / previous_close * 100 else 0
  { symbol := pyUpper symbol
    name := pyOrStr info.longName (pyOrStr info.shortName symbol)
    price := current_price
    change := change
    changePercent := change_percent
    volume := info.volume.getD 0
    marketCap := info.marketCap.getD 0
    pe := info.trailingPE.getD 0
    dividend := info.dividendRate.getD 0
    sector := info.sector.getD "Unknown"
    industry := info.industry.getD "Unknown"
    exchange := info.exchange.getD "NASDAQ"
    dayHigh := info.dayHigh.getD current_price
    dayLow := info.dayLow.getD current_price
    fiftyTwoWeekHigh := info.fiftyTwoWeekHigh.getD current_price
    fiftyTwoWeekLow := info.fiftyTwoWeekLow.getD current_price
    avgVolume := info.averageVolume.getD 0
    dividendYield :=
      match info.dividendYield with
      | none => 0
      | some v => if v = 0 then 0 else v * 100
    beta := info.beta.getD 0
    eps := info.trailingEps.getD 0 }

/-- What one loop attempt of `get_stock_data` observes from the provider:
either the `info` dictionary, or the message of a raised exception. -/
inductive AttemptOutcome where
  | info (i : TickerInfo)
  | raised (msg : String)

/-- The possible return values of `get_stock_data`: the fallback error
dictionary of lines 28-32 (a truthy dict with `success: False`), a populated
stock-data dictionary, or Python `None`. -/
inductive StockResult where
  | fallback
  | quote (q : StockData)
  | noData
  deriving DecidableEq

/-- Python truthiness of a `get_stock_data` return value: both dictionaries
are non-empty hence truthy, `None` is falsy. -/
def StockResult.isTruthy : StockResult → Bool
  | .fallback => true
  | .quote _ => true
  | .noData => false

/-- Result of a `get_stock_data` call, together with the observable trace the
claims talk about: the delays passed to `time.sleep` (line 42), and the
number of provider calls made. -/
structure FetchTrace where
  result : StockResult
  sleeps : List Nat
  calls : Nat
  deriving DecidableEq

/-- Embedding of the `for attempt in range(max_retries + 1)` loop of
lines 34-109.  `fuel` is the number of remaining iterations of the `range`
(initially `max_retries + 1`); `attempt` and `delay` are the loop variables
(`delay` is mutated by the `retry_delay *= 2` backoff at line 99).  When the
range is exhausted, line 109 returns `None`. -/
def getStockGo (symbol : String) (oracle : Nat → AttemptOutcome) (max_retries : Nat) :
    Nat → Nat → Nat → FetchTrace
  | _, _, 0 => ⟨.noData, [], 0⟩
  | attempt, delay, fuel + 1 =>
    let sleeps0 : List Nat := if attempt > 0 then [delay] else []
    match oracle attempt with
    | .info i =>
      match validPrice i with
      | none => ⟨.noData, sleeps0, 1⟩
      | some _ => ⟨.quote (buildStockData symbol i), sleeps0, 1⟩
    | .raised msg =>
      if isRateLimitMsg msg then
        if attempt < max_retries then
          let rest := getStockGo symbol oracle max_retries (attempt + 1) (delay * 2) fuel
          ⟨rest.result, sleeps0 ++ rest.sleeps, rest.calls + 1⟩
        else ⟨.noData, sleeps0, 1⟩
      else ⟨.noData, sleeps0, 1⟩

/-- Embedding of `get_stock_data(symbol, max_retries, retry_delay)`
(lines 25-109).  `avail` is the module-level `YFINANCE_AVAILABLE` flag;
when it is false the function short-circuits to the fallback dictionary
without any provider call (lines 27-32). -/
def get_stock_data (avail : Bool) (oracle : Nat → AttemptOutcome) (symbol : String)
    (max_retries retry_delay : Nat) : FetchTrace :=
  if avail then getStockGo symbol oracle max_retries 0 retry_delay (max_retries + 1)
  else ⟨.fallback, [], 0⟩

example :
    (get_stock_data true (fun _ => .raised "HTTP Error 429") "AAPL" 2 1).calls = 3 := by
  decide

example :
    (get_stock_data true (fun _ => .raised "HTTP Error 429") "AAPL" 2 1).sleeps = [2, 4] := by
  decide

example :
    (get_stock_data true (fun _ => .raised "boom") "AAPL" 2 1) = ⟨.noData, [], 1⟩ := by
  decide

/-- A `get_stock_data` call as `search_stocks` uses it (default arguments
`max_retries=2`, `retry_delay=1`), reduced to the Python truthiness test the
search applies: `some` the returned value when it is truthy, `none` otherwise.
`oracle` gives the per-attempt provider outcomes for each symbol fetched. -/
def fetchResult (avail : Bool) (oracle : String → Nat → AttemptOutcome) (s : String) :
    Option StockResult :=
  let r := (get_stock_data avail (oracle s) s 2 1).result
  if r.isTruthy then some r else none

/-- Line 131: the reduced suffix list `['.TO', '.V', '.AX']`. -/
def common_suffixes : List String := [".TO", ".V", ".AX"]

/-- Line 144: the fixed list of popular symbols. -/
def popular_symbols : List String :=
  ["AAPL", "MSFT", "GOOGL", "TSLA", "NVDA", "AMZN", "META", "NFLX"]

/-- Lines 133-139: try each exchange suffix in order, stopping at the first
truthy fetch. -/
def trySuffixes (avail : Bool) (oracle : String → Nat → AttemptOutcome)
    (search_term : String) : List String → Option StockResult
  | [] => none
  | suf :: rest =>
    match fetchResult avail oracle (search_term ++ suf) with
    | some r => some r
    | none => trySuffixes avail oracle search_term rest

/-- Lines 148-153: fetch the matching popular symbols in order, appending each
truthy result and stopping once two results are accumulated. -/
def tryPopular (avail : Bool) (oracle : String → Nat → AttemptOutcome) :
    List String → List StockResult → List StockResult
  | [], results => results
  | s :: rest, results =>
    match fetchResult avail oracle s with
    | some r =>
      let results2 := results ++ [r]
      if results2.length ≥ 2 then results2
      else tryPopular avail oracle rest results2
    | none => tryPopular avail oracle rest results

/-- Embedding of `search_stocks(query)` (lines 111-160).  The body runs
under a `try/except` that returns `[]` on any exception; the only operation
in the body that can raise is the f-string at line 126, which subscripts
`exact_match['symbol']` on the truthy exact match.  A populated quote has a
`symbol` key, so that phase returns `[exact_match]`; the fallback dictionary
(provider library unavailable) has no `symbol` key, so the access raises
`KeyError` and the `except` at lines 157-160 returns `[]`.  No other phase
subscripts a fetch result (the suffix and popular prints interpolate only
the symbol strings), and `get_stock_data` consumes every provider error
itself, so no other exception can reach the `except`.  `fetchResult` wraps
only truthy results in `some`, so the `some .noData` branch is
unreachable. -/
def search_stocks (avail : Bool) (oracle : String → Nat → AttemptOutcome)
    (query : String) : List StockResult :=
  let search_term := pyStrip (pyUpper query)
  if search_term.length < 1 then []
  else
    match fetchResult avail oracle search_term with
    | some (.quote q) => [.quote q]
    | some .fallback => []
    | some .noData => []
    | none =>
      let results :=
        match trySuffixes avail oracle search_term common_suffixes with
        | some r => [r]
        | none => []
      if results.isEmpty && search_term.length ≤ 4 then
        let matching_symbols := popular_symbols.filter fun s =>
          containsSub search_term.toList s.toList || containsSub s.toList search_term.toList
        tryPopular avail oracle (matching_symbols.take 2) results
      else results

/-- The JSON objects `main` can print to stdout, one constructor per
`print(json.dumps(...))` site (lines 165, 173-178, 183-187, 191-195,
197-201, 204).  Fields that are fixed strings in the source are left
implicit in the constructor; data-carrying fields are parameters. -/
inductive OutObj where
  | errorNoQuery
  | searchResult (results : List StockResult)
  | testUnavailable
  | testSuccess (data : StockResult)
  | testFailure (error : String)
  | errorInvalid
  deriving DecidableEq

/-- Observable effect of one run of `main()`: the JSON objects printed to
stdout (in order) and the process exit code (`sys.exit(1)` at line 166,
otherwise the normal exit 0). -/
structure MainResult where
  stdout : List OutObj
  exitCode : Nat
  deriving DecidableEq

/-- Line 190: `test_data.get("success", False)` — the fallback dictionary
carries `success: False`; a populated quote has no `success` key, so the
default `False` is returned. -/
def StockResult.successField : StockResult → Bool
  | .fallback => false
  | .quote _ => false
  | .noData => false

/-- Line 200: `test_data.get("error", "Unknown error") if test_data else
"No data returned"` — the fallback dictionary's `error` field is the string
set at line 30; a quote has no `error` key. -/
def testErrorMsg : StockResult → String
  | .noData => "No data returned"
  | .fallback => "yfinance module not available"
  | .quote _ => "Unknown error"

/-- Embedding of `main()` (lines 162-204).  `argv` is Python `sys.argv`
(the script name included, so "no arguments" is `argv.length < 2`). -/
def main (avail : Bool) (oracle : String → Nat → AttemptOutcome)
    (argv : List String) : MainResult :=
  if argv.length < 2 then ⟨[.errorNoQuery], 1⟩
  else
    let command := argv.getD 1 ""
    if command = "search" ∧ argv.length ≥ 3 then
      let query := argv.getD 2 ""
      ⟨[.searchResult (search_stocks avail oracle query)], 0⟩
    else if command = "test" then
      if !avail then ⟨[.testUnavailable], 0⟩
      else
        let test_data := (get_stock_data avail (oracle "AAPL") "AAPL" 2 1).result
        if test_data.isTruthy && test_data.successField then
          ⟨[.testSuccess test_data], 0⟩
        else
          ⟨[.testFailure (testErrorMsg test_data)], 0⟩
    else ⟨[.errorInvalid], 0⟩

example : main true (fun _ _ => .raised "x") [] = ⟨[.errorNoQuery], 1⟩ := by decide

example : main true (fun _ _ => .raised "x") ["yfinance_api.py", "search"] =
    ⟨[.errorInvalid], 0⟩ := by decide

/-! Concrete fixtures used by witnesses and counterexamples. -/

/-- A well-populated provider `info` dictionary with a valid non-zero price. -/
def infoAAPL : TickerInfo :=
  { regularMarketPrice := some 100
    regularMarketPreviousClose := some 90
    longName := some "Apple Inc."
    shortName := some "Apple"
    volume := some 1000
    marketCap := some 2000000
    trailingPE := some 30
    dividendRate := some 1
    sector := some "Technology"
    industry := some "Consumer Electronics"
    exchange := some "NMS"
    dayHigh := some 101
    dayLow := some 99
    fiftyTwoWeekHigh := some 150
    fiftyTwoWeekLow := some 80
    averageVolume := some 900
    dividendYield := some 1
    beta := some 1
    trailingEps := some 6 }

/-- An oracle on which every provider call raises a non-rate-limit error. -/
def oracleBoom : String → Nat → AttemptOutcome := fun _ _ => .raised "boom"

/-- An oracle on which every provider call returns `infoAAPL`. -/
def oracleGood : String → Nat → AttemptOutcome := fun _ _ => .info infoAAPL

/-- An oracle on which only the symbol `AB.TO` resolves; every other fetch
raises a non-rate-limit error. -/
def oracleSuffixTO : String → Nat → AttemptOutcome := fun s _ =>
  if s = "AB.TO" then .info infoAAPL else .raised "boom"

/-! Helper lemmas about the retry loop. -/

/-- Step lemma: the provider returned an `info` that fails the validity
check. -/
theorem getStockGo_step_info_bad {s : String} {o : Nat → AttemptOutcome}
    {mr a d n : Nat} {i : TickerInfo}
    (h : o a = .info i) (hv : validPrice i = none) :
    getStockGo s o mr a d (n + 1) = ⟨.noData, if a > 0 then [d] else [], 1⟩ := by
  simp [getStockGo, h, hv]

/-- Step lemma: the provider returned a valid `info`. -/
theorem getStockGo_step_info_ok {s : String} {o : Nat → AttemptOutcome}
    {mr a d n : Nat} {i : TickerInfo} {p : Rat}
    (h : o a = .info i) (hv : validPrice i = some p) :
    getStockGo s o mr a d (n + 1) =
      ⟨.quote (buildStockData s i), if a > 0 then [d] else [], 1⟩ := by
  simp [getStockGo, h, hv]

/-- Step lemma: a rate-limit error with retries left. -/
theorem getStockGo_step_rl_retry {s : String} {o : Nat → AttemptOutcome}
    {mr a d n : Nat} {m : String}
    (h : o a = .raised m) (hr : isRateLimitMsg m = true) (ha : a < mr) :
    getStockGo s o mr a d (n + 1) =
      ⟨(getStockGo s o mr (a + 1) (d * 2) n).result,
        (if a > 0 then [d] else []) ++ (getStockGo s o mr (a + 1) (d * 2) n).sleeps,
        (getStockGo s o mr (a + 1) (d * 2) n).calls + 1⟩ := by
  simp [getStockGo, h, hr, ha]

/-- Step lemma: a rate-limit error on the last allowed attempt. -/
theorem getStockGo_step_rl_stop {s : String} {o : Nat → AttemptOutcome}
    {mr a d n : Nat} {m : String}
    (h : o a = .raised m) (hr : isRateLimitMsg m = true) (ha : ¬a < mr) :
    getStockGo s o mr a d (n + 1) = ⟨.noData, if a > 0 then [d] else [], 1⟩ := by
  simp [getStockGo, h, hr, ha]

/-- Step lemma: any non-rate-limit error stops the loop at once. -/
theorem getStockGo_step_other {s : String} {o : Nat → AttemptOutcome}
    {mr a d n : Nat} {m : String}
    (h : o a = .raised m) (hr : isRateLimitMsg m = false) :
    getStockGo s o mr a d (n + 1) = ⟨.noData, if a > 0 then [d] else [], 1⟩ := by
  simp [getStockGo, h, hr]

/-- A successful validity check pins down the price field. -/
theorem validPrice_eq_some (i : TickerInfo) (p : Rat) (h : validPrice i = some p) :
    i.regularMarketPrice = some p ∧ p ≠ 0 := by
  unfold validPrice at h
  split at h
  · exact absurd h (by simp)
  · next x heq =>
    split at h
    · exact absurd h (by simp)
    · next hx =>
      cases h
      exact ⟨heq, hx⟩

/-- The loop never produces the fallback dictionary: its result is `None` or
a populated quote. -/
theorem getStockGo_result_cases (s : String) (o : Nat → AttemptOutcome) (mr : Nat) :
    ∀ fuel a d, (getStockGo s o mr a d fuel).result = .noData ∨
      ∃ q, (getStockGo s o mr a d fuel).result = .quote q := by
  intro fuel
  induction fuel with
  | zero => intro a d; left; rfl
  | succ n ih =>
    intro a d
    cases h : o a with
    | info i =>
      cases hv : validPrice i with
      | none => rw [getStockGo_step_info_bad h hv]; left; rfl
      | some p => rw [getStockGo_step_info_ok h hv]; right; exact ⟨buildStockData s i, rfl⟩
    | raised m =>
      cases hr : isRateLimitMsg m with
      | false => rw [getStockGo_step_other h hr]; left; rfl
      | true =>
        by_cases ha : a < mr
        · rw [getStockGo_step_rl_retry h hr ha]
          exact ih (a + 1) (d * 2)
        · rw [getStockGo_step_rl_stop h hr ha]; left; rfl

/-- Every quote the loop returns was built by `buildStockData` from an `info`
dictionary that passed the validity check. -/
theorem getStockGo_quote_shape (s : String) (o : Nat → AttemptOutcome) (mr : Nat) :
    ∀ fuel a d q, (getStockGo s o mr a d fuel).result = .quote q →
      ∃ i p, validPrice i = some p ∧ q = buildStockData s i := by
  intro fuel
  induction fuel with
  | zero => intro a d q h; exact absurd h (by simp [getStockGo])
  | succ n ih =>
    intro a d q h
    cases ho : o a with
    | info i =>
      cases hv : validPrice i with
      | none =>
        rw [getStockGo_step_info_bad ho hv] at h
        exact absurd h (by simp)
      | some p =>
        rw [getStockGo_step_info_ok ho hv] at h
        simp only [StockResult.quote.injEq] at h
        exact ⟨i, p, hv, h.symm⟩
    | raised m =>
      cases hr : isRateLimitMsg m with
      | false =>
        rw [getStockGo_step_other ho hr] at h
        exact absurd h (by simp)
      | true =>
        by_cases ha : a < mr
        · rw [getStockGo_step_rl_retry ho hr ha] at h
          exact ih (a + 1) (d * 2) q h
        · rw [getStockGo_step_rl_stop ho hr ha] at h
          exact absurd h (by simp)

/-- Under permanent rate-limit errors the loop runs its whole range: the
result is `None` and one provider call is made per remaining iteration. -/
theorem getStockGo_rl_noData_calls (s : String) (o : Nat → AttemptOutcome) (mr : Nat)
    (hall : ∀ k, ∃ m, o k = .raised m ∧ isRateLimitMsg m = true) :
    ∀ fuel a d, a + fuel = mr + 1 →
      (getStockGo s o mr a d fuel).result = .noData ∧
      (getStockGo s o mr a d fuel).calls = fuel := by
  intro fuel
  induction fuel with
  | zero => intro a d _; exact ⟨rfl, rfl⟩
  | succ n ih =>
    intro a d h
    obtain ⟨m, hm, hr⟩ := hall a
    by_cases ha : a < mr
    · rw [getStockGo_step_rl_retry hm hr ha]
      obtain ⟨h1, h2⟩ := ih (a + 1) (d * 2) (by omega)
      refine ⟨h1, ?_⟩
      show (getStockGo s o mr (a + 1) (d * 2) n).calls + 1 = n + 1
      omega
    · rw [getStockGo_step_rl_stop hm hr ha]
      refine ⟨rfl, ?_⟩
      show 1 = n + 1
      omega

/-- Under permanent rate-limit errors, from an attempt index of at least 1,
the recorded sleep delays double: `d, 2d, 4d, ...`, one per iteration. -/
theorem getStockGo_rl_sleeps (s : String) (o : Nat → AttemptOutcome) (mr : Nat)
    (hall : ∀ k, ∃ m, o k = .raised m ∧ isRateLimitMsg m = true) :
    ∀ fuel a d, 1 ≤ a → a + fuel = mr + 1 →
      (getStockGo s o mr a d fuel).sleeps = (List.range fuel).map (fun i => d * 2 ^ i) := by
  intro fuel
  induction fuel with
  | zero => intro a d _ _; rfl
  | succ n ih =>
    intro a d ha1 h
    obtain ⟨m, hm, hr⟩ := hall a
    by_cases ha : a < mr
    · rw [getStockGo_step_rl_retry hm hr ha]
      have hrec := ih (a + 1) (d * 2) (by omega) (by omega)
      show (if a > 0 then [d] else []) ++ (getStockGo s o mr (a + 1) (d * 2) n).sleeps = _
      rw [if_pos (by omega : a > 0), hrec, List.range_succ_eq_map, List.map_cons, List.map_map]
      simp only [pow_zero, mul_one, List.singleton_append]
      congr 1
      have hfun : (fun i => d * 2 * 2 ^ i) = ((fun i => d * 2 ^ i) ∘ Nat.succ) := by
        funext i
        simp only [Function.comp_apply, pow_succ]
        ring
      rw [hfun]
    · have hn : n = 0 := by omega
      subst hn
      rw [getStockGo_step_rl_stop hm hr ha]
      show (if a > 0 then [d] else []) = _
      rw [if_pos (by omega : a > 0)]
      rw [show List.range 1 = [0] from rfl]
      simp

/-- If every attempt raises (whatever the messages), the loop ends in
`None`. -/
theorem getStockGo_allraise_noData (s : String) (o : Nat → AttemptOutcome) (mr : Nat)
    (hall : ∀ k, ∃ m, o k = .raised m) :
    ∀ fuel a d, (getStockGo s o mr a d fuel).result = .noData := by
  intro fuel
  induction fuel with
  | zero => intro a d; rfl
  | succ n ih =>
    intro a d
    obtain ⟨m, hm⟩ := hall a
    cases hr : isRateLimitMsg m with
    | false => rw [getStockGo_step_other hm hr]
    | true =>
      by_cases ha : a < mr
      · rw [getStockGo_step_rl_retry hm hr ha]
        exact ih (a + 1) (d * 2)
      · rw [getStockGo_step_rl_stop hm hr ha]

/-- If every provider interaction raises, every fetch as the search performs
it yields `None`, hence is falsy. -/
theorem fetchResult_none_of_allraise (o : String → Nat → AttemptOutcome)
    (hall : ∀ s k, ∃ m, o s k = .raised m) (s : String) :
    fetchResult true o s = none := by
  have h : (get_stock_data true (o s) s 2 1).result = .noData :=
    getStockGo_allraise_noData s (o s) 2 (hall s) 3 0 1
  simp [fetchResult, h, StockResult.isTruthy]

/-- If every fetch is falsy, no suffix matches. -/
theorem trySuffixes_all_none {avail : Bool} {o : String → Nat → AttemptOutcome}
    (hfr : ∀ s, fetchResult avail o s = none) (t : String) :
    ∀ l, trySuffixes avail o t l = none := by
  intro l
  induction l with
  | nil => rfl
  | cons suf rest ih => simp [trySuffixes, hfr, ih]

/-- If every fetch is falsy, the popular-symbol loop returns its accumulator
unchanged. -/
theorem tryPopular_all_none {avail : Bool} {o : String → Nat → AttemptOutcome}
    (hfr : ∀ s, fetchResult avail o s = none) :
    ∀ l acc, tryPopular avail o l acc = acc := by
  intro l
  induction l with
  | nil => intro acc; rfl
  | cons s rest ih => intro acc; simp [tryPopular, hfr, ih]

/-- The popular-symbol loop adds results one at a time and stops at two:
starting from at most one accumulated result it never exceeds two. -/
theorem tryPopular_length_le {avail : Bool} {o : String → Nat → AttemptOutcome} :
    ∀ l acc, acc.length ≤ 1 → (tryPopular avail o l acc).length ≤ 2 := by
  intro l
  induction l with
  | nil => intro acc h; simpa [tryPopular] using le_trans h (by norm_num)
  | cons s rest ih =>
    intro acc h
    cases hf : fetchResult avail o s with
    | none =>
      simp only [tryPopular, hf]
      exact ih acc h
    | some r =>
      simp only [tryPopular, hf]
      by_cases h2 : (acc ++ [r]).length ≥ 2
      · rw [if_pos h2]
        simp only [List.length_append, List.length_singleton]
        omega
      · rw [if_neg h2]
        apply ih (acc ++ [r])
        have hlen : (acc ++ [r]).length = acc.length + 1 := by simp
        omega

/-- Whatever the oracle does, a search returns at most two results. -/
theorem search_stocks_length_le (avail : Bool) (o : String → Nat → AttemptOutcome)
    (query : String) : (search_stocks avail o query).length ≤ 2 := by
  by_cases hl : (pyStrip (pyUpper query)).length < 1
  · simp [search_stocks, hl]
  · cases hex : fetchResult avail o (pyStrip (pyUpper query)) with
    | some r => cases r <;> simp [search_stocks, hl, hex]
    | none =>
      cases hsuf : trySuffixes avail o (pyStrip (pyUpper query)) common_suffixes with
      | some r => simp [search_stocks, hl, hex, hsuf]
      | none =>
        by_cases h4 : (pyStrip (pyUpper query)).length ≤ 4
        · simp only [search_stocks, hl, if_false, hex, hsuf, h4]
          rw [if_pos (by simp)]
          exact tryPopular_length_le _ _ (by simp)
        · simp [search_stocks, hl, hex, hsuf, h4]

/-- Uppercasing preserves whitespace characters. -/
theorem toUpper_of_whitespace (c : Char) (h : c.isWhitespace = true) : c.toUpper = c := by
  have h' : ((c = ' ' ∨ c = '\t') ∨ c = '\x0d') ∨ c = '\n' := by
    simpa [Char.isWhitespace] using h
  rcases h' with ((rfl | rfl) | rfl) | rfl <;> decide

/-- Stripping a whitespace-only string yields the empty string. -/
theorem pyStrip_pyUpper_of_whitespace (query : String)
    (h : ∀ c ∈ query.toList, c.isWhitespace = true) :
    pyStrip (pyUpper query) = "" := by
  unfold pyStrip pyUpper
  have hdata : (String.mk (query.toList.map Char.toUpper)).toList
      = query.toList.map Char.toUpper := rfl
  rw [hdata]
  have hmap : ∀ c ∈ query.toList.map Char.toUpper, Char.isWhitespace c = true := by
    intro c hc
    obtain ⟨x, hx, rfl⟩ := List.mem_map.mp hc
    rw [toUpper_of_whitespace x (h x hx)]
    exact h x hx
  rw [List.dropWhile_eq_nil_iff.mpr hmap]
  rfl

/-! Claim theorems. -/

/-- C1, counterexample: when the provider library is unavailable,
`get_stock_data` does NOT return `None` — it returns the fallback error
dictionary, which is truthy.  This refutes the claim's "the result is
null/absent, never some other truthy value ... including when the provider
library is unavailable". -/
theorem get_stock_data_unavailable_truthy_counterexample :
    (get_stock_data false (oracleBoom "AAPL") "AAPL" 2 1).result = .fallback ∧
    ((get_stock_data false (oracleBoom "AAPL") "AAPL" 2 1).result).isTruthy = true ∧
    (get_stock_data false (oracleBoom "AAPL") "AAPL" 2 1).result ≠ .noData := by
  refine ⟨rfl, rfl, ?_⟩
  decide

/-- C1 (amended): `get_stock_data` returns the truthy fallback error record
exactly when the provider library is unavailable; when the library is
available, the result is either `None` or a populated quote — never the
fallback. -/
theorem get_stock_data_result_classification (avail : Bool) (o : Nat → AttemptOutcome)
    (s : String) (mr d : Nat) :
    (avail = false → get_stock_data avail o s mr d = ⟨.fallback, [], 0⟩) ∧
    (avail = true → (get_stock_data avail o s mr d).result = .noData ∨
      ∃ q, (get_stock_data avail o s mr d).result = .quote q) := by
  constructor
  · intro h; subst h; rfl
  · intro h; subst h
    exact getStockGo_result_cases s o mr (mr + 1) 0 d

/-- Witness for C1 at a concrete oracle and symbol. -/
theorem get_stock_data_result_classification_witness :
    get_stock_data false (oracleBoom "AAPL") "AAPL" 2 1 = ⟨.fallback, [], 0⟩ ∧
    ((get_stock_data true (oracleBoom "AAPL") "AAPL" 2 1).result = .noData ∨
      ∃ q, (get_stock_data true (oracleBoom "AAPL") "AAPL" 2 1).result = .quote q) :=
  ⟨(get_stock_data_result_classification false (oracleBoom "AAPL") "AAPL" 2 1).1 rfl,
   (get_stock_data_result_classification true (oracleBoom "AAPL") "AAPL" 2 1).2 rfl⟩

/-- C2 (code bug): when the provider returns a populated quote for `AAPL`,
the `test` subcommand still prints the failure object with error
`"Unknown error"` — the quote dictionary carries no `success` key, so
`test_data.get("success", False)` is always `False` and the success branch
is unreachable.  The first conjunct shows the fetch did return a populated
quote; the second shows `test` nevertheless prints `success: false`. -/
theorem test_subcommand_failure_on_valid_quote :
    (get_stock_data true (oracleGood "AAPL") "AAPL" 2 1).result
        = .quote (buildStockData "AAPL" infoAAPL) ∧
    main true oracleGood ["yfinance_api.py", "test"]
        = ⟨[.testFailure "Unknown error"], 0⟩ :=
  ⟨rfl, rfl⟩

/-- C3, counterexample: `search` with no query prints the invalid-command
error object but exits with status 0, not a non-zero status. -/
theorem main_search_missing_query_counterexample :
    main true oracleBoom ["yfinance_api.py", "search"] = ⟨[.errorInvalid], 0⟩ := by
  decide

/-- C3 (amended): a malformed invocation prints a single JSON error object;
only the no-arguments case exits with a non-zero status — every invocation
with at least one argument (the script name aside) exits 0, including
`search` without a query. -/
theorem main_error_objects_and_exit_codes (avail : Bool)
    (o : String → Nat → AttemptOutcome) (argv : List String) :
    (argv.length < 2 → main avail o argv = ⟨[.errorNoQuery], 1⟩) ∧
    (2 ≤ argv.length → (main avail o argv).exitCode = 0) ∧
    (2 ≤ argv.length → ¬(argv.getD 1 "" = "search" ∧ argv.length ≥ 3) →
      argv.getD 1 "" ≠ "test" → main avail o argv = ⟨[.errorInvalid], 0⟩) := by
  refine ⟨?_, ?_, ?_⟩
  · intro h
    simp only [main, if_pos h]
  · intro h
    simp only [main, if_neg (show ¬argv.length < 2 by omega)]
    split
    · rfl
    · split
      · split
        · rfl
        · split
          · rfl
          · rfl
      · rfl
  · intro h hns hnt
    simp only [main, if_neg (show ¬argv.length < 2 by omega), if_neg hns, if_neg hnt]

/-- Witness for C3 at concrete argument vectors. -/
theorem main_error_objects_and_exit_codes_witness :
    main true oracleBoom [] = ⟨[.errorNoQuery], 1⟩ ∧
    (main true oracleBoom ["yfinance_api.py", "bogus"]).exitCode = 0 ∧
    main true oracleBoom ["yfinance_api.py", "bogus"] = ⟨[.errorInvalid], 0⟩ :=
  ⟨(main_error_objects_and_exit_codes true oracleBoom []).1 (by decide),
   (main_error_objects_and_exit_codes true oracleBoom ["yfinance_api.py", "bogus"]).2.1
     (by decide),
   (main_error_objects_and_exit_codes true oracleBoom ["yfinance_api.py", "bogus"]).2.2
     (by decide) (by decide) (by decide)⟩

/-- C8: every invocation of the program writes exactly one JSON object to
standard output, whatever the provider oracle does; diagnostic prints in the
source all go to `sys.stderr` and are not part of the modelled stdout. -/
theorem main_stdout_single_json (avail : Bool) (o : String → Nat → AttemptOutcome)
    (argv : List String) : (main avail o argv).stdout.length = 1 := by
  simp only [main]
  split
  · rfl
  · split
    · rfl
    · split
      · split
        · rfl
        · split
          · rfl
          · rfl
      · rfl

/-- C4: if every attempt raises a rate-limit error, `get_stock_data` makes
exactly `max_retries + 1` provider calls, returns no data, and the recorded
sleep delays are `2d, 4d, ..., 2^max_retries * d` — each double the previous,
hence strictly increasing for any positive `retry_delay`. -/
theorem get_stock_data_rate_limit_backoff (o : Nat → AttemptOutcome) (s : String)
    (mr d : Nat)
    (hall : ∀ k, ∃ m, o k = AttemptOutcome.raised m ∧ isRateLimitMsg m = true)
    (hd : 0 < d) :
    (get_stock_data true o s mr d).result = .noData ∧
    (get_stock_data true o s mr d).calls = mr + 1 ∧
    (get_stock_data true o s mr d).sleeps = (List.range mr).map (fun i => d * 2 ^ (i + 1)) ∧
    List.Chain' (· < ·) (get_stock_data true o s mr d).sleeps := by
  have hcore := getStockGo_rl_noData_calls s o mr hall (mr + 1) 0 d (by omega)
  have hsl : (getStockGo s o mr 0 d (mr + 1)).sleeps
      = (List.range mr).map (fun i => d * 2 ^ (i + 1)) := by
    obtain ⟨m, hm, hr⟩ := hall 0
    by_cases h0 : 0 < mr
    · rw [getStockGo_step_rl_retry hm hr h0]
      show (if 0 > 0 then [d] else []) ++ (getStockGo s o mr 1 (d * 2) mr).sleeps = _
      rw [if_neg (by omega), List.nil_append,
        getStockGo_rl_sleeps s o mr hall mr 1 (d * 2) (by omega) (by omega)]
      apply List.map_congr_left
      intro i _
      rw [pow_succ]
      ring
    · have hmr : mr = 0 := by omega
      subst hmr
      rw [getStockGo_step_rl_stop hm hr (by omega)]
      rfl
  refine ⟨hcore.1, hcore.2, hsl, ?_⟩
  have hsl' : (get_stock_data true o s mr d).sleeps
      = (List.range mr).map (fun i => d * 2 ^ (i + 1)) := hsl
  rw [hsl']
  apply List.Pairwise.chain'
  rw [List.pairwise_map]
  apply List.Pairwise.imp ?_ (List.pairwise_lt_range mr)
  intro a b hab
  have h2 : (2 : Nat) ^ (a + 1) < 2 ^ (b + 1) :=
    Nat.pow_lt_pow_right (by omega) (by omega)
  exact mul_lt_mul_of_pos_left h2 hd

/-- Witness for C4 with two retries and unit delay. -/
theorem get_stock_data_rate_limit_backoff_witness :
    (get_stock_data true (fun _ => .raised "HTTP Error 429") "AAPL" 2 1).result = .noData ∧
    (get_stock_data true (fun _ => .raised "HTTP Error 429") "AAPL" 2 1).calls = 2 + 1 ∧
    (get_stock_data true (fun _ => .raised "HTTP Error 429") "AAPL" 2 1).sleeps =
      (List.range 2).map (fun i => 1 * 2 ^ (i + 1)) ∧
    List.Chain' (· < ·) (get_stock_data true (fun _ => .raised "HTTP Error 429") "AAPL" 2 1).sleeps :=
  get_stock_data_rate_limit_backoff (fun _ => .raised "HTTP Error 429") "AAPL" 2 1
    (fun _ => ⟨"HTTP Error 429", rfl, by decide⟩) (by decide)

/-- C5: a non-rate-limit error ends the fetch at once — one provider call,
no sleeps, result `None`; and when every provider interaction raises
(whatever the errors), `search_stocks` swallows them all and returns the
empty list rather than propagating an exception. -/
theorem get_stock_data_fail_fast_and_search_swallows :
    (∀ (o : Nat → AttemptOutcome) (s : String) (mr d : Nat) (m : String),
      o 0 = AttemptOutcome.raised m → isRateLimitMsg m = false →
      get_stock_data true o s mr d = ⟨.noData, [], 1⟩) ∧
    (∀ (o : String → Nat → AttemptOutcome) (query : String),
      (∀ s k, ∃ m, o s k = AttemptOutcome.raised m) →
      search_stocks true o query = []) := by
  constructor
  · intro o s mr d m h hr
    show getStockGo s o mr 0 d (mr + 1) = ⟨.noData, [], 1⟩
    rw [getStockGo_step_other h hr]
    rfl
  · intro o query hall
    have hfr : ∀ s, fetchResult true o s = none :=
      fetchResult_none_of_allraise o hall
    by_cases hl : (pyStrip (pyUpper query)).length < 1
    · simp [search_stocks, hl]
    · have hsuf := trySuffixes_all_none hfr (pyStrip (pyUpper query)) common_suffixes
      by_cases h4 : (pyStrip (pyUpper query)).length ≤ 4
      · simp only [search_stocks, hl, if_false, hfr, hsuf, h4]
        rw [if_pos (by simp)]
        exact tryPopular_all_none hfr _ _
      · simp [search_stocks, hl, hfr, hsuf, h4]

/-- Witness for C5 at a concrete always-raising oracle. -/
theorem get_stock_data_fail_fast_and_search_swallows_witness :
    get_stock_data true (oracleBoom "X") "X" 2 1 = ⟨.noData, [], 1⟩ ∧
    search_stocks true oracleBoom "AAPL" = [] :=
  ⟨get_stock_data_fail_fast_and_search_swallows.1 (oracleBoom "X") "X" 2 1 "boom"
      rfl (by decide),
   get_stock_data_fail_fast_and_search_swallows.2 oracleBoom "AAPL"
      (fun _ _ => ⟨"boom", rfl⟩)⟩

/-- C6: a query that is empty or consists only of whitespace normalises to
the empty search term, so the search returns the empty list — for every
oracle, hence without any fetch being attempted. -/
theorem search_stocks_blank_query_empty (avail : Bool)
    (o : String → Nat → AttemptOutcome) (query : String)
    (h : ∀ c ∈ query.toList, c.isWhitespace = true) :
    search_stocks avail o query = [] := by
  have ht := pyStrip_pyUpper_of_whitespace query h
  simp [search_stocks, ht]

/-- Witness for C6 on a whitespace-only query. -/
theorem search_stocks_blank_query_empty_witness :
    search_stocks true oracleBoom "   " = [] :=
  search_stocks_blank_query_empty true oracleBoom "   " (by decide)

/-- C7: the search phases run in order — the exact-symbol fetch first (a
populated quote is returned alone; a truthy fallback result — the
provider-unavailable case — ends the search with `[]` through the KeyError
raised at line 126 and swallowed at line 157); then the three exchange
suffixes `.TO`, `.V`, `.AX` in order, stopping at the first truthy fetch;
the popular-symbol phase is skipped whenever the normalised query is longer
than 4 characters and earlier phases produced nothing; and the result list
never holds more than 2 entries (1 from the suffix phase plus 2 from the
popular phase is an upper bound never exceeded beyond an exact match). -/
theorem search_stocks_phase_order_and_bound (avail : Bool)
    (o : String → Nat → AttemptOutcome) (query : String) :
    (∀ q, 1 ≤ (pyStrip (pyUpper query)).length →
      fetchResult avail o (pyStrip (pyUpper query)) = some (.quote q) →
      search_stocks avail o query = [.quote q]) ∧
    (1 ≤ (pyStrip (pyUpper query)).length →
      fetchResult avail o (pyStrip (pyUpper query)) = some .fallback →
      search_stocks avail o query = []) ∧
    (∀ r, 1 ≤ (pyStrip (pyUpper query)).length →
      fetchResult avail o (pyStrip (pyUpper query)) = none →
      fetchResult avail o (pyStrip (pyUpper query) ++ ".TO") = some r →
      search_stocks avail o query = [r]) ∧
    (∀ r, 1 ≤ (pyStrip (pyUpper query)).length →
      fetchResult avail o (pyStrip (pyUpper query)) = none →
      fetchResult avail o (pyStrip (pyUpper query) ++ ".TO") = none →
      fetchResult avail o (pyStrip (pyUpper query) ++ ".V") = some r →
      search_stocks avail o query = [r]) ∧
    (∀ r, 1 ≤ (pyStrip (pyUpper query)).length →
      fetchResult avail o (pyStrip (pyUpper query)) = none →
      fetchResult avail o (pyStrip (pyUpper query) ++ ".TO") = none →
      fetchResult avail o (pyStrip (pyUpper query) ++ ".V") = none →
      fetchResult avail o (pyStrip (pyUpper query) ++ ".AX") = some r →
      search_stocks avail o query = [r]) ∧
    (fetchResult avail o (pyStrip (pyUpper query)) = none →
      fetchResult avail o (pyStrip (pyUpper query) ++ ".TO") = none →
      fetchResult avail o (pyStrip (pyUpper query) ++ ".V") = none →
      fetchResult avail o (pyStrip (pyUpper query) ++ ".AX") = none →
      5 ≤ (pyStrip (pyUpper query)).length →
      search_stocks avail o query = []) ∧
    (search_stocks avail o query).length ≤ 2 := by
  refine ⟨?_, ?_, ?_, ?_, ?_, ?_, search_stocks_length_le avail o query⟩
  · intro q h1 h2
    simp [search_stocks, show ¬(pyStrip (pyUpper query)).length < 1 by omega, h2]
  · intro h1 h2
    simp [search_stocks, show ¬(pyStrip (pyUpper query)).length < 1 by omega, h2]
  · intro r h1 hex hTO
    simp [search_stocks, show ¬(pyStrip (pyUpper query)).length < 1 by omega, hex,
      common_suffixes, trySuffixes, hTO]
  · intro r h1 hex hTO hV
    simp [search_stocks, show ¬(pyStrip (pyUpper query)).length < 1 by omega, hex,
      common_suffixes, trySuffixes, hTO, hV]
  · intro r h1 hex hTO hV hAX
    simp [search_stocks, show ¬(pyStrip (pyUpper query)).length < 1 by omega, hex,
      common_suffixes, trySuffixes, hTO, hV, hAX]
  · intro hex hTO hV hAX h5
    simp [search_stocks, show ¬(pyStrip (pyUpper query)).length < 1 by omega, hex,
      common_suffixes, trySuffixes, hTO, hV, hAX,
      show ¬(pyStrip (pyUpper query)).length ≤ 4 by omega]

/-- Witness for C7: exact match fails, the first suffix resolves. -/
theorem search_stocks_phase_order_and_bound_witness :
    search_stocks true oracleSuffixTO "ab" = [.quote (buildStockData "AB.TO" infoAAPL)] :=
  (search_stocks_phase_order_and_bound true oracleSuffixTO "ab").2.2.1
    (.quote (buildStockData "AB.TO" infoAAPL)) (by decide) (by decide) rfl

/-- C9: whenever `get_stock_data` returns a populated quote, its `symbol`
field is the input symbol uppercased and its `price` field is non-zero. -/
theorem get_stock_data_quote_upper_nonzero (avail : Bool) (o : Nat → AttemptOutcome)
    (s : String) (mr d : Nat) (q : StockData)
    (h : (get_stock_data avail o s mr d).result = .quote q) :
    q.symbol = pyUpper s ∧ q.price ≠ 0 := by
  cases avail with
  | false => exact absurd h (by simp [get_stock_data])
  | true =>
    obtain ⟨i, p, hv, rfl⟩ := getStockGo_quote_shape s o mr (mr + 1) 0 d q h
    obtain ⟨hm, hp⟩ := validPrice_eq_some i p hv
    refine ⟨rfl, ?_⟩
    have hpr : (buildStockData s i).price = p := by
      show i.regularMarketPrice.getD 0 = p
      rw [hm]
      rfl
    rw [hpr]
    exact hp

/-- Witness for C9 on a concrete successful fetch. -/
theorem get_stock_data_quote_upper_nonzero_witness :
    (buildStockData "aapl" infoAAPL).symbol = pyUpper "aapl" ∧
    (buildStockData "aapl" infoAAPL).price ≠ 0 :=
  get_stock_data_quote_upper_nonzero true (oracleGood "aapl") "aapl" 2 1
    (buildStockData "aapl" infoAAPL) rfl

/-- An `infoAAPL` variant whose previous close is negative (a non-positive
previous close must not be used as a divisor). -/
def infoNegPC : TickerInfo :=
  { infoAAPL with regularMarketPreviousClose := some (-1) }

/-- C10: every quote `get_stock_data` returns is built by `buildStockData`,
whose `changePercent` never divides by zero: the previous close defaults to
the current price when absent, and whenever it is not strictly positive the
field is set to `0` instead of being computed by division. -/
theorem changePercent_division_guard :
    (∀ (avail : Bool) (o : Nat → AttemptOutcome) (s : String) (mr d : Nat) (q : StockData),
      (get_stock_data avail o s mr d).result = .quote q →
      ∃ info, q = buildStockData s info) ∧
    (∀ (symbol : String) (info : TickerInfo),
      (info.regularMarketPreviousClose = none →
        info.regularMarketPreviousClose.getD (info.regularMarketPrice.getD 0)
          = info.regularMarketPrice.getD 0) ∧
      (buildStockData symbol info).changePercent =
        (if 0 < info.regularMarketPreviousClose.getD (info.regularMarketPrice.getD 0) then
          (info.regularMarketPrice.getD 0
            - info.regularMarketPreviousClose.getD (info.regularMarketPrice.getD 0))
            / info.regularMarketPreviousClose.getD (info.regularMarketPrice.getD 0) * 100
        else 0) ∧
      (¬0 < info.regularMarketPreviousClose.getD (info.regularMarketPrice.getD 0) →
        (buildStockData symbol info).changePercent = 0)) := by
  constructor
  · intro avail o s mr d q h
    cases avail with
    | false => exact absurd h (by simp [get_stock_data])
    | true =>
      obtain ⟨i, p, _, hq⟩ := getStockGo_quote_shape s o mr (mr + 1) 0 d q h
      exact ⟨i, hq⟩
  · intro symbol info
    refine ⟨fun h => by rw [h]; rfl, rfl, fun h => ?_⟩
    have h2 : (buildStockData symbol info).changePercent =
        (if 0 < info.regularMarketPreviousClose.getD (info.regularMarketPrice.getD 0) then
          (info.regularMarketPrice.getD 0
            - info.regularMarketPreviousClose.getD (info.regularMarketPrice.getD 0))
            / info.regularMarketPreviousClose.getD (info.regularMarketPrice.getD 0) * 100
        else 0) := rfl
    rw [h2, if_neg h]

/-- Witness for C10: a populated quote is `buildStockData`-shaped, and with a
negative previous close the change percentage is `0`, not a division. -/
theorem changePercent_division_guard_witness :
    (∃ info, buildStockData "AAPL" infoAAPL = buildStockData "AAPL" info) ∧
    (buildStockData "X" infoNegPC).changePercent = 0 :=
  ⟨changePercent_division_guard.1 true (oracleGood "AAPL") "AAPL" 2 1
      (buildStockData "AAPL" infoAAPL) rfl,
   (changePercent_division_guard.2 "X" infoNegPC).2.2 (by decide)⟩

end YFinanceApi
